import Mathlib

/-!
Portfolio view: data model, components and state operations.

A shallow embedding of `src/my-portfolio/src/PortfolioDemo.jsx`.

* JSON objects are records; a field that may be missing is an `Option`.
* A component is a function from its props to a view record that keeps the
  document structure, the texts, the addresses (`src`, `href`), the
  accessibility labels and the click handlers; class names are left out.
* A click handler is recorded as the call it makes (`onOpenMedia(item, idx)` is
  the pair `(item, idx)`).
* `useState` cells are fields of `State`; a setter replaces its field.
* The two catalogs, the two copy tables, the current year and the viewport
  class are inputs of the page.
-/

namespace Portfolio

/-! ## JavaScript value helpers -/

/-- Truthiness of an optional string: `undefined` and `""` are falsy. -/
def truthy : Option String → Bool
  | some s => decide (s ≠ "")
  | none => false

/-- The expression `a || b` on optional strings. -/
def orElse (a b : Option String) : Option String :=
  if truthy a then a else b

/-- The expression `a || b` when `b` is a string that is always there. -/
def orStr (a : Option String) (b : String) : String :=
  match a with
  | some s => if s ≠ "" then s else b
  | none => b

/-- Interpolation of an optional string in a template literal. -/
def tpl : Option String → String
  | some s => s
  | none => "undefined"

/-- The expression `xs[i]` for an integer `i`: `undefined` outside the list. -/
def jsIndex {α : Type} (xs : List α) : Int → Option α
  | Int.ofNat n => xs[n]?
  | Int.negSucc _ => none

/-! ## Data model -/

/-- One entry of `item.media`. -/
structure MediaEntry where
  type : Option String
  src : Option String
  alt : Option String
  youtubeId : Option String
  thumb : Option String
  caption : Option String
  deriving DecidableEq, Repr

/-- One entry of `item.links`. -/
structure Link where
  href : String
  label : String
  deriving DecidableEq, Repr

/-- A catalog item (an element of `projects.json` or `lab.json`). -/
structure Item where
  id : String
  title : String
  description : String
  tech : List String
  media : List MediaEntry
  links : Option (List Link)
  link : Option String
  deriving DecidableEq, Repr

/-- A copy table (`i18n.en.json`, `i18n.es.json`): the keys the page reads. -/
structure Copy where
  name : String
  tagline : String
  language : String
  fontSize : String
  projects : String
  lab : String
  bioTab : String
  techStack : String
  moreMedia : String
  viewLink : String
  footerNote : String
  deriving DecidableEq, Repr

/-- The object `copy = { en, es }`. -/
structure CopyTables where
  en : Copy
  es : Copy
  deriving DecidableEq, Repr

/-- The lookup `copy[lang]`. -/
def CopyTables.lookup (c : CopyTables) (lang : String) : Option Copy :=
  if lang = "en" then some c.en else if lang = "es" then some c.es else none

/-- The entries of a copy table. -/
def Copy.entries (t : Copy) : List String :=
  [t.name, t.tagline, t.language, t.fontSize, t.projects, t.lab, t.bioTab,
   t.techStack, t.moreMedia, t.viewLink, t.footerNote]

/-- The `lightbox` state cell. -/
structure Lightbox where
  isOpen : Bool
  item : Option Item
  index : Int
  deriving DecidableEq, Repr

/-- The state cells of `PortfolioDemo`. -/
structure State where
  lang : String
  fontSize : String
  sectionKey : String
  lightbox : Lightbox
  deriving DecidableEq, Repr

/-- The initial values given to `useState`. -/
def State.initial : State :=
  { lang := "en", fontSize := "base", sectionKey := "projects",
    lightbox := { isOpen := false, item := none, index := 0 } }

/-! ## State operations -/

def setLang (st : State) (lang : String) : State := { st with lang := lang }

def setFontSize (st : State) (s : String) : State := { st with fontSize := s }

def setSection (st : State) (s : String) : State := { st with sectionKey := s }

def setLightbox (st : State) (lb : Lightbox) : State := { st with lightbox := lb }

def openMedia (st : State) (item : Option Item) (index : Int) : State :=
  setLightbox st { isOpen := true, item := item, index := index }

def closeMedia (st : State) : State :=
  setLightbox st { isOpen := false, item := none, index := 0 }

/-- The hook `useIsMobile`, as a function of the window width. -/
def useIsMobile (innerWidth : Nat) (breakpoint : Nat) : Bool :=
  decide (innerWidth < breakpoint)

/-- The list `items` of `PortfolioDemo`. -/
def items (projects lab : List Item) (sectionKey : String) : List Item :=
  if sectionKey = "projects" then projects else if sectionKey = "lab" then lab else []

/-- The class `textSize` of `PortfolioDemo`. -/
def textSize (fontSize : String) : String :=
  if fontSize = "sm" then "text-sm" else if fontSize = "lg" then "text-lg" else "text-base"

/-! ## Views -/

/-- The language select and the font size buttons. -/
structure ToolbarView where
  languageLabel : String
  selectAriaLabel : Option String
  selectValue : String
  options : List (String × String)
  fontSizeLabel : String
  sizeButtons : List (String × Bool)
  deriving DecidableEq, Repr

/-- The portrait, the name and the tagline. -/
structure BioView where
  portraitAlt : String
  name : String
  tagline : String
  deriving DecidableEq, Repr

inductive HeaderView where
  | desktop (toolbar : ToolbarView) (band : BioView)
  | mobile (toolbar : ToolbarView) (band : BioView)
  deriving DecidableEq, Repr

structure TabView where
  key : String
  label : String
  current : Bool
  deriving DecidableEq, Repr

/-- The hero of a card: a clickable video thumbnail or a plain image. -/
inductive HeroView where
  | video (src : String) (alt : String) (onClick : Item × Nat)
  | image (src : Option String) (alt : Option String)
  deriving DecidableEq, Repr

/-- One button of the thumbnail strip. -/
structure ThumbView where
  src : Option String
  alt : String
  ariaLabel : String
  playMark : Bool
  onClick : Item × Nat
  deriving DecidableEq, Repr

/-- The overlayed link block: the anchors built from `item.links` and the
generic anchor built from `item.link`. -/
structure LinkBlockView where
  anchors : List Link
  generic : Option Link
  deriving DecidableEq, Repr

structure CardView where
  title : String
  description : String
  techHeading : String
  chips : List String
  hero : HeroView
  linkBlock : Option LinkBlockView
  playBadge : Option (Item × Nat)
  playBadgeAriaLabel : Option String
  moreMediaHeading : String
  thumbs : List ThumbView
  deriving DecidableEq, Repr

/-- What the lightbox shows: an embedded player or an image. -/
inductive LightboxBody where
  | iframe (src : String) (title : String)
  | img (src : Option String) (alt : Option String)
  deriving DecidableEq, Repr

structure LightboxView where
  ariaLabel : String
  closeAriaLabel : String
  closeText : String
  body : LightboxBody
  caption : Option String
  deriving DecidableEq, Repr

inductive MainView where
  | bioArticle (heading : String) (prose : String)
  | cards (cs : List CardView)
  deriving DecidableEq, Repr

structure FooterView where
  copyright : List String
  noteHref : String
  note : String
  deriving DecidableEq, Repr

structure PageView where
  textSize : String
  header : HeaderView
  tabs : List TabView
  main : MainView
  footer : FooterView
  lightbox : Option LightboxView
  deriving DecidableEq, Repr

/-! ## Components -/

/-- The buttons built by `["sm", "base", "lg"].map`. -/
def sizeButtons (fontSize : String) : List (String × Bool) :=
  ["sm", "base", "lg"].map fun s => (s, decide (fontSize = s))

def ToolbarFloating (t : Copy) (lang fontSize : String) : ToolbarView :=
  { languageLabel := t.language
    selectAriaLabel := some t.language
    selectValue := lang
    options := [("en", "EN"), ("es", "ES")]
    fontSizeLabel := t.fontSize
    sizeButtons := sizeButtons fontSize }

def BioHeaderMobile (t : Copy) (lang fontSize : String) : HeaderView :=
  HeaderView.mobile
    { languageLabel := t.language
      selectAriaLabel := none
      selectValue := lang
      options := [("en", "EN"), ("es", "ES")]
      fontSizeLabel := t.fontSize
      sizeButtons := sizeButtons fontSize }
    { portraitAlt := "Portrait of " ++ t.name, name := t.name, tagline := t.tagline }

def BioHeaderDesktop (t : Copy) : BioView :=
  { portraitAlt := "Portrait of " ++ t.name, name := t.name, tagline := t.tagline }

def SectionTabs (t : Copy) (current : String) : List TabView :=
  [("projects", t.projects), ("lab", t.lab), ("bio", t.bioTab)].map fun btn =>
    { key := btn.1, label := btn.2, current := decide (current = btn.1) }

/-- The test `m.type === "youtube"`. -/
def isYoutube (m : MediaEntry) : Bool := decide (m.type = some "youtube")

/-- The thumbnail address of a video entry: `m.thumb` or the address derived
from `m.youtubeId`. -/
def videoThumb (m : MediaEntry) : String :=
  orStr m.thumb ("https://img.youtube.com/vi/" ++ tpl m.youtubeId ++ "/hqdefault.jpg")

/-- The hero part of `ProjectCard`, with `hero = item.media?.[0]`. -/
def heroView (item : Item) : HeroView :=
  match item.media[0]? with
  | some hero =>
    if isYoutube hero then
      HeroView.video (videoThumb hero) (orStr (orElse hero.alt hero.caption) "Video") (item, 0)
    else HeroView.image hero.src hero.alt
  | none => HeroView.image none none

/-- The test `isHeroVideo` of `ProjectCard`. -/
def isHeroVideo (item : Item) : Bool :=
  match item.media[0]? with
  | some hero => isYoutube hero
  | none => false

/-- Truthiness of `item.links?.length`. -/
def hasLinks (item : Item) : Bool :=
  match item.links with
  | some l => decide (l.length ≠ 0)
  | none => false

/-- The overlayed links of `ProjectCard`: the block is there when
`item.links?.length || item.link` is truthy, and holds the anchors of
`item.links?.map` followed by the generic anchor when
`!item.links?.length && item.link`. -/
def linkBlock (item : Item) (t : Copy) : Option LinkBlockView :=
  if hasLinks item || truthy item.link then
    some
      { anchors := (item.links.getD []).map fun lnk => { href := lnk.href, label := lnk.label }
        generic :=
          match item.link with
          | some href =>
            if !hasLinks item && truthy item.link then some { href := href, label := t.viewLink }
            else none
          | none => none }
  else none

/-- The link actions a card shows, in document order. -/
def CardView.linkActions (v : CardView) : List Link :=
  match v.linkBlock with
  | some b => b.anchors ++ b.generic.toList
  | none => []

/-- One button of the strip, built by the callback of `item.media.map`. -/
def thumbView (item : Item) (idx : Nat) (m : MediaEntry) : ThumbView :=
  { src := if isYoutube m then some (videoThumb m) else m.src
    alt := orStr (orElse m.alt m.caption) (if isYoutube m then "Video" else "Image")
    ariaLabel := "Open media " ++ toString (idx + 1) ++ " for " ++ item.title
    playMark := isYoutube m
    onClick := (item, idx) }

def ProjectCard (item : Item) (t : Copy) : CardView :=
  { title := item.title
    description := item.description
    techHeading := t.techStack
    chips := item.tech
    hero := heroView item
    linkBlock := linkBlock item t
    playBadge := if isHeroVideo item then some (item, 0) else none
    playBadgeAriaLabel := if isHeroVideo item then some "Play video" else none
    moreMediaHeading := t.moreMedia
    thumbs := item.media.mapIdx fun idx m => thumbView item idx m }

def MediaLightbox (isOpen : Bool) (media : List MediaEntry) (title : String) (index : Int) :
    Option LightboxView :=
  if !isOpen then none
  else
    let m := jsIndex media index
    let isVideo := decide (m.bind (·.type) = some "youtube")
    some
      { ariaLabel := title ++ " media viewer"
        closeAriaLabel := "Close"
        closeText := "✕"
        body :=
          if isVideo then
            LightboxBody.iframe ("https://www.youtube.com/embed/" ++ tpl (m.bind (·.youtubeId)))
              (orStr (orElse (m.bind (·.caption)) (m.bind (·.alt))) title)
          else LightboxBody.img (m.bind (·.src)) (m.bind (·.alt))
        caption :=
          if truthy (orElse (m.bind (·.caption)) (m.bind (·.alt))) then
            orElse (m.bind (·.caption)) (m.bind (·.alt))
          else none }

/-- The paragraph of the bio article. -/
def bioProse : String :=
  "Long‑form professional story goes here—how 3D/2D art led to tools and web dev, the problems you like to solve, and what you’re exploring next."

/-- The props `media` and `title` that `PortfolioDemo` gives to the lightbox:
`lightbox.item?.media || []` and `lightbox.item?.title || ""`. -/
def lightboxMedia (lb : Lightbox) : List MediaEntry :=
  match lb.item with
  | some it => it.media
  | none => []

def lightboxTitle (lb : Lightbox) : String :=
  orStr (lb.item.map (·.title)) ""

/-- The page. It is `none` when `copy[lang]` is `undefined`, where reading
`t.language` throws. -/
def PortfolioDemo (copy : CopyTables) (projects lab : List Item) (year : Nat) (isMobile : Bool)
    (st : State) : Option PageView :=
  match copy.lookup st.lang with
  | none => none
  | some t =>
    some
      { textSize := textSize st.fontSize
        header :=
          if !isMobile then
            HeaderView.desktop (ToolbarFloating t st.lang st.fontSize) (BioHeaderDesktop t)
          else BioHeaderMobile t st.lang st.fontSize
        tabs := SectionTabs t st.sectionKey
        main :=
          if st.sectionKey = "bio" then MainView.bioArticle t.bioTab bioProse
          else MainView.cards ((items projects lab st.sectionKey).map fun p => ProjectCard p t)
        footer :=
          { copyright := ["© ", toString year, " • ", t.name]
            noteHref := "https://github.com/youruser/your-portfolio"
            note := t.footerNote }
        lightbox :=
          MediaLightbox st.lightbox.isOpen (lightboxMedia st.lightbox)
            (lightboxTitle st.lightbox) st.lightbox.index }

/-! ## Click handlers of a card -/

/-- The `onOpenMedia` call of the hero image, when it has one. -/
def HeroView.openCall : HeroView → Option (Item × Nat)
  | HeroView.video _ _ call => some call
  | HeroView.image _ _ => none

/-- Every `onOpenMedia(item, idx)` call a card can make: the hero image, the
play badge and the buttons of the strip. -/
def CardView.openCalls (v : CardView) : List (Item × Nat) :=
  v.hero.openCall.toList ++ v.playBadge.toList ++ v.thumbs.map (·.onClick)

/-- One user event on the page: a choice in the toolbar, a tab, the close
button of the lightbox, or a click on a card of a catalog item, which runs
`openMedia` with the arguments the card passes to `onOpenMedia`. -/
inductive Step (projects lab : List Item) : State → State → Prop where
  | lang (st : State) (l : String) : l = "en" ∨ l = "es" → Step projects lab st (setLang st l)
  | fontSize (st : State) (s : String) : s ∈ ["sm", "base", "lg"] →
      Step projects lab st (setFontSize st s)
  | tab (st : State) (s : String) : s ∈ ["projects", "lab", "bio"] →
      Step projects lab st (setSection st s)
  | close (st : State) : Step projects lab st (closeMedia st)
  | card (st : State) (item : Item) (t : Copy) (call : Item × Nat) :
      item ∈ projects ∨ item ∈ lab → call ∈ (ProjectCard item t).openCalls →
      Step projects lab st (openMedia st (some call.1) (Int.ofNat call.2))

/-- The states the page can reach from the initial one. -/
inductive Reachable (projects lab : List Item) : State → Prop where
  | init : Reachable projects lab State.initial
  | step (st st2 : State) : Reachable projects lab st → Step projects lab st st2 →
      Reachable projects lab st2

/-- The invariant of the lightbox cell: an open lightbox has an item and an
index that is a position of the item's media. -/
def Lightbox.Valid (lb : Lightbox) : Prop :=
  lb.isOpen = true → ∃ it : Item, lb.item = some it ∧ 0 ≤ lb.index ∧ lb.index < it.media.length

/-! ## User-facing strings of the rendered page

Every string a user can read or hear: the text nodes and the `alt`,
`aria-label` and `title` attributes, in document order, catalog content
included. -/

/-- The projections of a header. -/
def HeaderView.toolbar : HeaderView → ToolbarView
  | HeaderView.desktop tb _ => tb
  | HeaderView.mobile tb _ => tb

def HeaderView.band : HeaderView → BioView
  | HeaderView.desktop _ band => band
  | HeaderView.mobile _ band => band

/-- The label, the select's `aria-label`, the option texts, the font size
label and the button texts. -/
def ToolbarView.allTexts (v : ToolbarView) : List String :=
  [v.languageLabel] ++ v.selectAriaLabel.toList ++ v.options.map (·.2) ++ [v.fontSizeLabel] ++
    v.sizeButtons.map (·.1)

def BioView.allTexts (v : BioView) : List String := [v.portraitAlt, v.name, v.tagline]

def HeaderView.allTexts (v : HeaderView) : List String :=
  v.toolbar.allTexts ++ v.band.allTexts

def HeroView.allTexts : HeroView → List String
  | HeroView.video _ alt _ => [alt]
  | HeroView.image _ alt => alt.toList

def ThumbView.allTexts (v : ThumbView) : List String :=
  [v.ariaLabel, v.alt] ++ (if v.playMark then ["▶"] else [])

def CardView.allTexts (v : CardView) : List String :=
  [v.title, v.description, v.techHeading] ++ v.chips ++ v.hero.allTexts ++
    v.linkActions.map (·.label) ++ v.playBadgeAriaLabel.toList ++
    (if v.playBadge.isSome then ["▶"] else []) ++ [v.moreMediaHeading] ++
    v.thumbs.flatMap ThumbView.allTexts

def LightboxBody.allTexts : LightboxBody → List String
  | LightboxBody.iframe _ title => [title]
  | LightboxBody.img _ alt => alt.toList

def LightboxView.allTexts (v : LightboxView) : List String :=
  [v.ariaLabel, v.closeAriaLabel, v.closeText] ++ v.body.allTexts ++ v.caption.toList

def MainView.allTexts : MainView → List String
  | MainView.bioArticle heading prose => [heading, prose]
  | MainView.cards cs => cs.flatMap CardView.allTexts

/-- Every user-facing string of the page. -/
def PageView.allTexts (v : PageView) : List String :=
  v.header.allTexts ++ v.tabs.map (·.label) ++ v.main.allTexts ++ v.footer.copyright ++
    [v.footer.note] ++
    (match v.lightbox with
     | some lb => lb.allTexts
     | none => [])

/-- The strings of a media entry: its alt text and its caption. -/
def MediaEntry.contentTexts (m : MediaEntry) : List String :=
  m.alt.toList ++ m.caption.toList

/-- The catalog content of an item: title, description, tech names, link
labels and the strings of its media. -/
def Item.contentTexts (it : Item) : List String :=
  [it.title, it.description] ++ it.tech ++ (it.links.getD []).map (·.label) ++
    it.media.flatMap MediaEntry.contentTexts

/-- The codes and marks the page shows in every language: the option labels,
the size labels, the play and close marks and the copyright line's symbols
and year. -/
def fixedCodes (year : Nat) : List String :=
  ["EN", "ES", "sm", "base", "lg", "▶", "✕", "© ", toString year, " • "]

/-- The strings the code writes in English whatever the language is: the
paragraph of the bio article, the labels "Close" and "Play video", the alt
fallbacks "Video" and "Image", and the labels composed around a name, a
position or a title. -/
def hardCodedEnglish (s : String) : Prop :=
  s = bioProse ∨ s = "Close" ∨ s = "Play video" ∨ s = "Video" ∨ s = "Image" ∨
    (∃ x : String, s = "Portrait of " ++ x) ∨
    (∃ (n : Nat) (x : String), s = "Open media " ++ toString n ++ " for " ++ x) ∨
    ∃ x : String, s = x ++ " media viewer"

/-! ## Sample data -/

def sampleEn : Copy :=
  { name := "Ada Example", tagline := "Tools and web", language := "Language",
    fontSize := "Font size", projects := "Projects", lab := "Lab", bioTab := "Bio",
    techStack := "Tech stack", moreMedia := "More media", viewLink := "View",
    footerNote := "Source" }

def sampleEs : Copy :=
  { name := "Ada Example", tagline := "Herramientas y web", language := "Idioma",
    fontSize := "Tamaño de letra", projects := "Proyectos", lab := "Laboratorio",
    bioTab := "Biografía", techStack := "Tecnologías", moreMedia := "Más contenido",
    viewLink := "Ver", footerNote := "Código" }

def sampleCopy : CopyTables := { en := sampleEn, es := sampleEs }

def sampleImage : MediaEntry :=
  { type := some "image", src := some "/images/a.png", alt := some "Screenshot",
    youtubeId := none, thumb := none, caption := none }

def sampleVideo : MediaEntry :=
  { type := some "youtube", src := none, alt := none, youtubeId := some "abc123",
    thumb := none, caption := some "Demo reel" }

def sampleVideoThumb : MediaEntry :=
  { type := some "youtube", src := none, alt := none, youtubeId := some "abc123",
    thumb := some "/images/reel.jpg", caption := none }

def sampleBare : MediaEntry :=
  { type := none, src := some "/images/b.png", alt := none, youtubeId := none,
    thumb := none, caption := none }

/-- An item with a video hero, an image and two links. -/
def sampleItem : Item :=
  { id := "p1", title := "Viewer", description := "A viewer", tech := ["React"],
    media := [sampleVideo, sampleImage],
    links := some [{ href := "https://a.example", label := "Site" },
                   { href := "https://b.example", label := "Code" }],
    link := some "https://legacy.example" }

/-- An item with one image and a legacy link only. -/
def sampleLegacy : Item :=
  { id := "p2", title := "Old", description := "An old one", tech := [],
    media := [sampleImage], links := none, link := some "https://legacy.example" }

/-! ## Section selection and the lightbox cell -/

/-- C1: after `setSection(s)` the list `items` is the projects catalog for
"projects", the lab catalog for "lab" and the empty list for "bio", each
catalog as stored. -/
theorem items_after_setSection (projects lab : List Item) (st : State) :
    items projects lab (setSection st "projects").sectionKey = projects ∧
    items projects lab (setSection st "lab").sectionKey = lab ∧
    items projects lab (setSection st "bio").sectionKey = [] := by
  refine ⟨?_, ?_, ?_⟩ <;> simp [items, setSection]

/-- C2: from any state, closed or open, `openMedia(item, index)` stores an
open lightbox with exactly that item and that index, and leaves the other
cells as they were. -/
theorem openMedia_lightbox (st : State) (item : Option Item) (index : Int) :
    (openMedia st item index).lightbox = { isOpen := true, item := item, index := index } ∧
    (openMedia st item index).lang = st.lang ∧
    (openMedia st item index).fontSize = st.fontSize ∧
    (openMedia st item index).sectionKey = st.sectionKey :=
  ⟨rfl, rfl, rfl, rfl⟩

/-- C3: `closeMedia()` stores the closed lightbox (not open, no item, index
0) from any state, and a lightbox that is not open renders nothing, whatever
its media, title and index are. -/
theorem closeMedia_closed (st : State) (media : List MediaEntry) (title : String) (index : Int) :
    (closeMedia st).lightbox = { isOpen := false, item := none, index := 0 } ∧
    MediaLightbox false media title index = none ∧
    MediaLightbox (closeMedia st).lightbox.isOpen media title index = none :=
  ⟨rfl, rfl, rfl⟩

/-! ## Project cards -/

/-- C4: a card with a non-empty `links` list shows one action per entry, in
order, with the entry's address and label, and nothing for a legacy `link`;
with `links` empty or absent and a non-empty legacy `link` it shows the one
generic action, labelled `viewLink` and pointing to `link`; with neither it
shows no action. -/
theorem card_linkActions (item : Item) (t : Copy) :
    (∀ l : List Link, item.links = some l → l ≠ [] → (ProjectCard item t).linkActions = l) ∧
    (∀ href : String, (item.links = none ∨ item.links = some []) → item.link = some href →
      href ≠ "" → (ProjectCard item t).linkActions = [{ href := href, label := t.viewLink }]) ∧
    ((item.links = none ∨ item.links = some []) → (item.link = none ∨ item.link = some "") →
      (ProjectCard item t).linkActions = []) := by
  refine ⟨?_, ?_, ?_⟩
  · intro l hl hne
    have hlen : l.length ≠ 0 := fun h => hne (List.length_eq_zero.mp h)
    cases hk : item.link <;>
      simp [ProjectCard, CardView.linkActions, linkBlock, hasLinks, hl, hlen, hk, truthy]
  · intro href hl hk hne
    rcases hl with hl | hl <;>
      simp [ProjectCard, CardView.linkActions, linkBlock, hasLinks, hl, hk, truthy, hne]
  · intro hl hk
    rcases hl with hl | hl <;> rcases hk with hk | hk <;>
      simp [ProjectCard, CardView.linkActions, linkBlock, hasLinks, hl, hk, truthy]

/-- Witness of C4 on the sample items. -/
theorem card_linkActions_witness :
    (ProjectCard sampleItem sampleEn).linkActions =
      [{ href := "https://a.example", label := "Site" },
       { href := "https://b.example", label := "Code" }] ∧
    (ProjectCard sampleLegacy sampleEn).linkActions =
      [{ href := "https://legacy.example", label := "View" }] :=
  ⟨(card_linkActions sampleItem sampleEn).1 _ rfl (by decide),
   (card_linkActions sampleLegacy sampleEn).2.1 _ (Or.inl rfl) rfl (by decide)⟩

/-- C5: when the hero `media[0]` is a video with identifier `y`, the card
shows a clickable thumbnail whose address is the explicit `thumb` when one is
supplied (a non-empty string), and otherwise the address
"https://img.youtube.com/vi/" ++ y ++ "/hqdefault.jpg". -/
theorem card_hero_thumbnail (item : Item) (t : Copy) (hero : MediaEntry) (y : String)
    (h0 : item.media[0]? = some hero) (hv : hero.type = some "youtube")
    (hy : hero.youtubeId = some y) :
    ∃ src alt : String, (ProjectCard item t).hero = HeroView.video src alt (item, 0) ∧
      (∀ th : String, hero.thumb = some th → th ≠ "" → src = th) ∧
      ((hero.thumb = none ∨ hero.thumb = some "") →
        src = "https://img.youtube.com/vi/" ++ y ++ "/hqdefault.jpg") := by
  refine ⟨videoThumb hero, orStr (orElse hero.alt hero.caption) "Video", ?_, ?_, ?_⟩
  · simp [ProjectCard, heroView, h0, isYoutube, hv]
  · intro th hth hne
    simp [videoThumb, orStr, hth, hne]
  · intro hth
    rcases hth with hth | hth <;> simp [videoThumb, orStr, hth, hy, tpl]

/-- Witness of C5 on the sample item, whose hero is a video without a thumb. -/
theorem card_hero_thumbnail_witness :
    ∃ src alt : String, (ProjectCard sampleItem sampleEn).hero =
        HeroView.video src alt (sampleItem, 0) ∧
      (∀ th : String, sampleVideo.thumb = some th → th ≠ "" → src = th) ∧
      ((sampleVideo.thumb = none ∨ sampleVideo.thumb = some "") →
        src = "https://img.youtube.com/vi/" ++ "abc123" ++ "/hqdefault.jpg") :=
  card_hero_thumbnail sampleItem sampleEn sampleVideo "abc123" rfl rfl rfl

/-! ## Language -/

/-- C6, as stated, fails. With the sample tables and language "es", the
page in the "bio" section with the lightbox open, and the page in the
"projects" section, both show strings that are neither catalog content nor
entries of the Spanish table: the codes "EN" and "base", the English
paragraph of the bio article, and the English labels "Close",
"Portrait of Ada Example", "Viewer media viewer", "Play video" and
"Open media 1 for Viewer". -/
theorem page_texts_not_all_spanish :
    (∃ v : PageView,
      PortfolioDemo sampleCopy [sampleItem] [] 2025 false
        (setLang (openMedia (setSection State.initial "bio") (some sampleItem) 0) "es") =
          some v ∧
      ¬ (∀ s ∈ v.allTexts, s ∈ sampleItem.contentTexts ∨ s ∈ sampleCopy.es.entries) ∧
      ∀ s ∈ ["EN", "base", bioProse, "Close", "Portrait of Ada Example", "Viewer media viewer"],
        s ∈ v.allTexts ∧ s ∉ sampleItem.contentTexts ∧ s ∉ sampleCopy.es.entries) ∧
    ∃ v : PageView,
      PortfolioDemo sampleCopy [sampleItem] [] 2025 false (setLang State.initial "es") =
        some v ∧
      ∀ s ∈ ["Play video", "Open media 1 for Viewer"],
        s ∈ v.allTexts ∧ s ∉ sampleItem.contentTexts ∧ s ∉ sampleCopy.es.entries := by
  refine ⟨⟨_, rfl, ?_, by decide⟩, _, rfl, by decide⟩
  intro h
  have hEN := h "EN" (by decide)
  revert hEN
  decide

/-- The alt text `m.alt || m.caption || fallback` is the fallback or a string
of the entry. -/
theorem alt_or_fallback (m : MediaEntry) (fb : String) :
    orStr (orElse m.alt m.caption) fb = fb ∨
      orStr (orElse m.alt m.caption) fb ∈ m.contentTexts := by
  cases ha : m.alt with
  | none =>
    cases hc : m.caption with
    | none => simp [orElse, orStr, truthy]
    | some c =>
      by_cases hce : c = ""
      · simp [orElse, orStr, truthy, hce]
      · simp [orElse, orStr, truthy, hce, MediaEntry.contentTexts, hc]
  | some a =>
    by_cases hae : a = ""
    · cases hc : m.caption with
      | none => simp [orElse, orStr, truthy, hae]
      | some c =>
        by_cases hce : c = ""
        · simp [orElse, orStr, truthy, hae, hce]
        · simp [orElse, orStr, truthy, hae, hce, MediaEntry.contentTexts, hc]
    · simp [orElse, orStr, truthy, hae, MediaEntry.contentTexts, ha]

/-- The text `m.caption || m.alt`, when there is one, is a string of the
entry. -/
theorem caption_or_alt_mem (m : MediaEntry) (s : String)
    (h : orElse m.caption m.alt = some s) : s ∈ m.contentTexts := by
  unfold orElse at h
  split at h
  · simp [MediaEntry.contentTexts, h]
  · simp [MediaEntry.contentTexts, h]

/-- A string of a media entry of an item is catalog content of the item. -/
theorem media_content_mem (it : Item) (m : MediaEntry) (s : String) (hm : m ∈ it.media)
    (hs : s ∈ m.contentTexts) : s ∈ it.contentTexts := by
  simp only [Item.contentTexts, List.mem_append, List.mem_flatMap]
  exact Or.inr ⟨m, hm, hs⟩

/-- Every user-facing string of a card is catalog content of its item, an
entry of the copy table the card was given, the play mark, or one of the
strings written in English. -/
theorem mem_card_allTexts (p : Item) (t : Copy) (s : String)
    (h : s ∈ (ProjectCard p t).allTexts) :
    s ∈ p.contentTexts ∨ s ∈ t.entries ∨ s = "▶" ∨ hardCodedEnglish s := by
  simp only [CardView.allTexts, List.mem_append] at h
  rcases h with ((((((h | h) | h) | h) | h) | h) | h) | h
  · -- title, description, tech heading
    simp only [ProjectCard, List.mem_cons, List.mem_singleton, List.not_mem_nil, or_false] at h
    rcases h with h | h | h
    · exact Or.inl (by simp [Item.contentTexts, h])
    · exact Or.inl (by simp [Item.contentTexts, h])
    · exact Or.inr (Or.inl (by simp [Copy.entries, h]))
  · -- chips
    exact Or.inl (by
      simp only [ProjectCard] at h
      simp [Item.contentTexts, h])
  · -- hero alt
    simp only [ProjectCard, heroView] at h
    cases h0 : p.media[0]? with
    | none => simp [h0, HeroView.allTexts] at h
    | some hero =>
      have hmem : hero ∈ p.media := List.getElem?_mem h0
      simp only [h0] at h
      by_cases hv : isYoutube hero = true
      · simp only [hv, if_true, HeroView.allTexts, List.mem_singleton] at h
        rcases alt_or_fallback hero "Video" with hfb | hc
        · exact Or.inr (Or.inr (Or.inr (Or.inr (Or.inr (Or.inr (Or.inl (by rw [h, hfb])))))))
        · exact Or.inl (media_content_mem p hero s hmem (by rw [h]; exact hc))
      · simp only [hv, HeroView.allTexts] at h
        exact Or.inl (media_content_mem p hero s hmem (by
          simp only [MediaEntry.contentTexts, List.mem_append]
          exact Or.inl (by simpa using h)))
  · -- link labels
    simp only [List.mem_map] at h
    rcases h with ⟨lnk, hl, rfl⟩
    simp only [CardView.linkActions, ProjectCard] at hl
    cases hb : linkBlock p t with
    | none => simp [hb] at hl
    | some b =>
      simp only [hb, List.mem_append] at hl
      unfold linkBlock at hb
      split at hb
      · cases hb
        rcases hl with hl | hl
        · simp only [List.mem_map] at hl
          rcases hl with ⟨l0, hl0, rfl⟩
          exact Or.inl (by
            simp only [Item.contentTexts, List.mem_append, List.mem_map]
            exact Or.inl (Or.inr ⟨l0, hl0, rfl⟩))
        · cases hk : p.link with
          | none => simp [hk] at hl
          | some href =>
            simp only [hk] at hl
            split at hl
            · simp only [Option.toList, List.mem_singleton] at hl
              exact Or.inr (Or.inl (by simp [Copy.entries, hl]))
            · simp at hl
      · cases hb
  · -- play badge label
    simp only [ProjectCard] at h
    split at h
    · simp only [Option.toList, List.mem_singleton] at h
      exact Or.inr (Or.inr (Or.inr (Or.inr (Or.inr (Or.inl h)))))
    · simp at h
  · -- play badge mark
    split at h
    · exact Or.inr (Or.inr (Or.inl (by simpa using h)))
    · simp at h
  · -- more media heading
    simp only [ProjectCard, List.mem_singleton] at h
    exact Or.inr (Or.inl (by simp [Copy.entries, h]))
  · -- strip
    simp only [ProjectCard, List.mem_flatMap, List.mem_mapIdx] at h
    rcases h with ⟨th, ⟨i, hi, rfl⟩, hs⟩
    have hmem : p.media[i] ∈ p.media := List.getElem_mem hi
    simp only [ThumbView.allTexts, thumbView, List.mem_append, List.mem_cons,
      List.mem_singleton, List.not_mem_nil, or_false] at hs
    rcases hs with (hs | hs) | hs
    · exact Or.inr (Or.inr (Or.inr (Or.inr (Or.inr (Or.inr (Or.inr (Or.inr (Or.inr
        (Or.inl ⟨i + 1, p.title, hs⟩)))))))))
    · rcases alt_or_fallback p.media[i] (if isYoutube p.media[i] = true then "Video" else "Image")
        with hfb | hc
      · rw [hs, hfb]
        by_cases hv : isYoutube p.media[i] = true
        · exact Or.inr (Or.inr (Or.inr (Or.inr (Or.inr (Or.inr (Or.inl (by simp [hv])))))))
        · exact Or.inr (Or.inr (Or.inr (Or.inr (Or.inr (Or.inr (Or.inr (Or.inl
            (by simp [hv]))))))))
      · exact Or.inl (media_content_mem p _ s hmem (by rw [hs]; exact hc))
    · split at hs
      · exact Or.inr (Or.inr (Or.inl (by simpa using hs)))
      · simp at hs

/-- An entry found by indexing is an element of the list. -/
theorem jsIndex_mem {α : Type} (xs : List α) (i : Int) (a : α) (h : jsIndex xs i = some a) :
    a ∈ xs := by
  cases i with
  | ofNat n => exact List.getElem?_mem h
  | negSucc n => cases h

/-- The expression `a || b` is `b` or the string of `a`. -/
theorem orStr_cases (a : Option String) (b : String) : orStr a b = b ∨ a = some (orStr a b) := by
  cases a with
  | none => exact Or.inl rfl
  | some x =>
    by_cases hx : x = ""
    · exact Or.inl (by simp [orStr, hx])
    · exact Or.inr (by simp [orStr, hx])

/-- The title the page gives to the lightbox is the title of its item. -/
theorem lightboxTitle_of_item (lb : Lightbox) (it : Item) (h : lb.item = some it) :
    lightboxTitle lb = it.title := by
  by_cases ht : it.title = "" <;> simp [lightboxTitle, h, orStr, ht]

/-- Every user-facing string of the lightbox, as the page renders it, is
catalog content of the item it shows, the close mark, or one of the strings
written in English. -/
theorem mem_lightbox_allTexts (lb : Lightbox) (view : LightboxView) (s : String)
    (h : MediaLightbox lb.isOpen (lightboxMedia lb) (lightboxTitle lb) lb.index = some view)
    (hs : s ∈ view.allTexts) :
    (∃ it : Item, lb.item = some it ∧ s ∈ it.contentTexts) ∨ s = "✕" ∨ hardCodedEnglish s := by
  have hitem : ∀ m : MediaEntry, jsIndex (lightboxMedia lb) lb.index = some m →
      ∀ x : String, x ∈ m.contentTexts → ∃ it : Item, lb.item = some it ∧ x ∈ it.contentTexts := by
    intro m hm x hx
    have hmem := jsIndex_mem _ _ _ hm
    cases hi : lb.item with
    | none => simp [lightboxMedia, hi] at hmem
    | some it =>
      simp only [lightboxMedia, hi] at hmem
      exact ⟨it, rfl, media_content_mem it m x hmem hx⟩
  unfold MediaLightbox at h
  split at h
  · cases h
  · simp only [Option.some.injEq] at h
    subst h
    simp only [LightboxView.allTexts, List.mem_append, List.mem_cons, List.mem_singleton,
      List.not_mem_nil, or_false] at hs
    rcases hs with ((hs | hs | hs) | hs) | hs
    · exact Or.inr (Or.inr (Or.inr (Or.inr (Or.inr (Or.inr (Or.inr (Or.inr (Or.inr
        ⟨lightboxTitle lb, hs⟩))))))))
    · exact Or.inr (Or.inr (Or.inr (Or.inl hs)))
    · exact Or.inr (Or.inl hs)
    · cases hm : jsIndex (lightboxMedia lb) lb.index with
      | none => simp [hm, LightboxBody.allTexts] at hs
      | some m =>
        simp only [hm, Option.bind] at hs
        split at hs
        · simp only [LightboxBody.allTexts, List.mem_singleton] at hs
          rcases orStr_cases (orElse m.caption m.alt) (lightboxTitle lb) with ht | hc
          · cases hi : lb.item with
            | none =>
              have hmem := jsIndex_mem _ _ _ hm
              simp [lightboxMedia, hi] at hmem
            | some it =>
              exact Or.inl ⟨it, rfl, by
                rw [hs, ht, lightboxTitle_of_item lb it hi]
                simp [Item.contentTexts]⟩
          · exact Or.inl (hitem m hm s (caption_or_alt_mem m s (by rw [hs]; exact hc)))
        · simp only [LightboxBody.allTexts] at hs
          exact Or.inl (hitem m hm s (by
            simp only [MediaEntry.contentTexts, List.mem_append]
            exact Or.inl (by simpa using hs)))
    · cases hm : jsIndex (lightboxMedia lb) lb.index with
      | none => simp [hm, orElse, truthy] at hs
      | some m =>
        simp only [hm, Option.bind] at hs
        split at hs
        · exact Or.inl (hitem m hm s (caption_or_alt_mem m s (by simpa using hs)))
        · simp at hs

/-- The generic anchor of a link block is labelled with `viewLink`. -/
theorem generic_label (p : Item) (t : Copy) (b : LinkBlockView) (g : Link)
    (hb : linkBlock p t = some b) (hg : b.generic = some g) : g.label = t.viewLink := by
  unfold linkBlock at hb
  split at hb
  · cases hb
    cases hk : p.link with
    | none => simp [hk] at hg
    | some href =>
      simp only [hk] at hg
      split at hg
      · cases hg
        rfl
      · cases hg
  · cases hb

/-- The items of a section are catalog items. -/
theorem mem_items (projects lab : List Item) (key : String) (p : Item)
    (h : p ∈ items projects lab key) : p ∈ projects ∨ p ∈ lab := by
  unfold items at h
  split at h
  · exact Or.inl h
  · split at h
    · exact Or.inr h
    · cases h

/-- C6, amended: after `setLang("es")` the page renders in every state, and
every place where the code reads the copy table shows the Spanish entry for
its key: the toolbar labels and the select's `aria-label` (language,
fontSize), the header (name, tagline), the tabs (projects, lab, bioTab), the
bio heading (bioTab), each card's headings (techStack, moreMedia) and generic
link label (viewLink), and the footer (name, footerNote). Every user-facing
string of the page (text nodes and `alt`, `aria-label` and `title`
attributes) is catalog content, such a Spanish entry, one of the codes and
marks shown in every language, or one of the strings written in English in
the code, which this statement leaves open. The page does not depend on the
English table. -/
theorem page_texts_spanish_by_key (copy : CopyTables) (projects lab : List Item) (year : Nat)
    (isMobile : Bool) (st : State) :
    ∃ v : PageView,
      PortfolioDemo copy projects lab year isMobile (setLang st "es") = some v ∧
      v.header.toolbar.languageLabel = copy.es.language ∧
      (∀ a : String, v.header.toolbar.selectAriaLabel = some a → a = copy.es.language) ∧
      v.header.toolbar.fontSizeLabel = copy.es.fontSize ∧
      v.header.band.name = copy.es.name ∧
      v.header.band.tagline = copy.es.tagline ∧
      v.tabs.map (fun b => (b.key, b.label)) =
        [("projects", copy.es.projects), ("lab", copy.es.lab), ("bio", copy.es.bioTab)] ∧
      (∀ heading prose : String, v.main = MainView.bioArticle heading prose →
        heading = copy.es.bioTab) ∧
      (∀ cs : List CardView, v.main = MainView.cards cs → ∀ c ∈ cs,
        c.techHeading = copy.es.techStack ∧ c.moreMediaHeading = copy.es.moreMedia ∧
        ∀ (b : LinkBlockView) (g : Link), c.linkBlock = some b → b.generic = some g →
          g.label = copy.es.viewLink) ∧
      v.footer.copyright = ["© ", toString year, " • ", copy.es.name] ∧
      v.footer.note = copy.es.footerNote ∧
      (∀ s ∈ v.allTexts,
        (∃ it : Item, (it ∈ projects ∨ it ∈ lab ∨ st.lightbox.item = some it) ∧
          s ∈ it.contentTexts) ∨
        s ∈ copy.es.entries ∨ s ∈ fixedCodes year ∨ hardCodedEnglish s) ∧
      ∀ en2 : Copy,
        PortfolioDemo { en := en2, es := copy.es } projects lab year isMobile
          (setLang st "es") = some v := by
  have hl : ∀ c : CopyTables, c.lookup "es" = some c.es := fun c => by
    simp [CopyTables.lookup]
  simp only [PortfolioDemo, setLang, hl]
  refine ⟨_, rfl, ?_, ?_, ?_, ?_, ?_, ?_, ?_, ?_, rfl, rfl, ?_, ?_⟩
  · cases isMobile <;> rfl
  · intro a ha
    cases isMobile
    · simp only [HeaderView.toolbar, ToolbarFloating] at ha
      cases ha
      rfl
    · simp [HeaderView.toolbar, BioHeaderMobile] at ha
  · cases isMobile <;> rfl
  · cases isMobile <;> rfl
  · cases isMobile <;> rfl
  · simp [SectionTabs]
  · intro heading prose hmain
    dsimp only at hmain
    by_cases hbio : st.sectionKey = "bio"
    · rw [if_pos hbio] at hmain
      cases hmain
      rfl
    · rw [if_neg hbio] at hmain
      cases hmain
  · intro cs hmain c hc
    dsimp only at hmain
    by_cases hbio : st.sectionKey = "bio"
    · rw [if_pos hbio] at hmain
      cases hmain
    · rw [if_neg hbio] at hmain
      cases hmain
      simp only [List.mem_map] at hc
      rcases hc with ⟨p, _, rfl⟩
      exact ⟨rfl, rfl, fun b g hb hg => generic_label p copy.es b g hb hg⟩
  · intro s hs
    simp only [PageView.allTexts, List.mem_append] at hs
    rcases hs with ((((hs | hs) | hs) | hs) | hs) | hs
    · have hlist : s ∈ [copy.es.language, "EN", "ES", copy.es.fontSize, "sm", "base", "lg",
          "Portrait of " ++ copy.es.name, copy.es.name, copy.es.tagline] := by
        cases isMobile <;>
          simpa [HeaderView.allTexts, HeaderView.toolbar, HeaderView.band, BioHeaderMobile,
            ToolbarFloating, BioHeaderDesktop, ToolbarView.allTexts, BioView.allTexts,
            sizeButtons] using hs
      simp only [List.mem_cons, List.not_mem_nil, or_false] at hlist
      rcases hlist with h | h | h | h | h | h | h | h | h | h <;>
        first
        | exact Or.inr (Or.inr (Or.inr (Or.inr (Or.inr (Or.inr (Or.inr (Or.inr
            (Or.inl ⟨copy.es.name, h⟩))))))))
        | (refine Or.inr (Or.inr (Or.inl ?_)); simp [h, fixedCodes]; done)
        | (refine Or.inr (Or.inl ?_); simp [h, Copy.entries])
    · simp [SectionTabs] at hs
      rcases hs with h | h | h <;> exact Or.inr (Or.inl (by simp [h, Copy.entries]))
    · by_cases hbio : st.sectionKey = "bio"
      · simp [hbio, MainView.allTexts] at hs
        rcases hs with h | h
        · exact Or.inr (Or.inl (by simp [h, Copy.entries]))
        · exact Or.inr (Or.inr (Or.inr (Or.inl h)))
      · simp only [hbio, if_false, MainView.allTexts, List.mem_flatMap, List.mem_map] at hs
        rcases hs with ⟨c, ⟨p, hp, rfl⟩, hsc⟩
        rcases mem_card_allTexts p copy.es s hsc with h | h | h | h
        · rcases mem_items projects lab _ p hp with hp2 | hp2
          · exact Or.inl ⟨p, Or.inl hp2, h⟩
          · exact Or.inl ⟨p, Or.inr (Or.inl hp2), h⟩
        · exact Or.inr (Or.inl h)
        · exact Or.inr (Or.inr (Or.inl (by simp [h, fixedCodes])))
        · exact Or.inr (Or.inr (Or.inr h))
    · simp at hs
      rcases hs with h | h | h | h
      · exact Or.inr (Or.inr (Or.inl (by simp [h, fixedCodes])))
      · exact Or.inr (Or.inr (Or.inl (by simp [h, fixedCodes])))
      · exact Or.inr (Or.inr (Or.inl (by simp [h, fixedCodes])))
      · exact Or.inr (Or.inl (by simp [h, Copy.entries]))
    · simp at hs
      exact Or.inr (Or.inl (by simp [hs, Copy.entries]))
    · cases hlb : MediaLightbox st.lightbox.isOpen (lightboxMedia st.lightbox)
          (lightboxTitle st.lightbox) st.lightbox.index with
      | none => simp [hlb] at hs
      | some lbv =>
        simp only [hlb] at hs
        rcases mem_lightbox_allTexts st.lightbox lbv s hlb hs with ⟨it, hit, h⟩ | h | h
        · exact Or.inl ⟨it, Or.inr (Or.inr hit), h⟩
        · exact Or.inr (Or.inr (Or.inl (by simp [h, fixedCodes])))
        · exact Or.inr (Or.inr (Or.inr h))
  · intro en2
    rfl

/-! ## The lightbox invariant -/

/-- Every `onOpenMedia` call of a card passes the card's own item and a
position of its media. -/
theorem openCalls_in_range (item : Item) (t : Copy) (call : Item × Nat)
    (h : call ∈ (ProjectCard item t).openCalls) :
    call.1 = item ∧ call.2 < item.media.length := by
  simp only [CardView.openCalls, ProjectCard, List.mem_append, List.mem_map] at h
  rcases h with (h | h) | h
  · cases hm : item.media with
    | nil => simp [heroView, hm, HeroView.openCall] at h
    | cons hero rest =>
      by_cases hv : isYoutube hero = true
      · simp [heroView, hm, HeroView.openCall, hv] at h
        simp [h]
      · simp [heroView, hm, HeroView.openCall, hv] at h
  · cases hm : item.media with
    | nil => simp [isHeroVideo, hm] at h
    | cons hero rest =>
      by_cases hv : isYoutube hero = true
      · simp [isHeroVideo, hm, hv] at h
        simp [h]
      · simp [isHeroVideo, hm, hv] at h
  · rcases h with ⟨th, hth, rfl⟩
    rw [List.mem_mapIdx] at hth
    rcases hth with ⟨i, hi, rfl⟩
    exact ⟨rfl, hi⟩

/-- One event keeps the lightbox invariant. -/
theorem step_valid (projects lab : List Item) (st st2 : State)
    (hs : Step projects lab st st2) (hv : st.lightbox.Valid) : st2.lightbox.Valid := by
  cases hs with
  | lang l _ => exact hv
  | fontSize s _ => exact hv
  | tab s _ => exact hv
  | close => intro h; cases h
  | card item t call _ hc =>
    intro _
    obtain ⟨h1, h2⟩ := openCalls_in_range item t call hc
    refine ⟨call.1, rfl, ?_, ?_⟩
    · exact Int.ofNat_nonneg _
    · show (Int.ofNat call.2) < ((call.1.media.length : Nat) : Int)
      rw [h1]
      exact Int.ofNat_lt.mpr h2

/-- C7: in every state reachable from the initial one by the events of the
page (toolbar and tab choices, `closeMedia`, and the `openMedia` calls that
the cards of catalog items make), an open lightbox has an item and its index
is a position of that item's media. -/
theorem reachable_lightbox_valid (projects lab : List Item) (st : State)
    (h : Reachable projects lab st) :
    st.lightbox.isOpen = true →
      ∃ it : Item, st.lightbox.item = some it ∧ 0 ≤ st.lightbox.index ∧
        st.lightbox.index < it.media.length := by
  induction h with
  | init => intro h; cases h
  | step st st2 _ hs ih => exact step_valid projects lab st st2 hs ih

/-- Witness of C7: the state after a click on the second thumbnail of the
sample item, which is reachable and open. -/
theorem reachable_lightbox_valid_witness :
    ∃ it : Item,
      (openMedia State.initial (some sampleItem) 1).lightbox.item = some it ∧
      0 ≤ (openMedia State.initial (some sampleItem) 1).lightbox.index ∧
      (openMedia State.initial (some sampleItem) 1).lightbox.index < it.media.length :=
  reachable_lightbox_valid [sampleItem] [] (openMedia State.initial (some sampleItem) 1)
    (Reachable.step State.initial _ Reachable.init
      (Step.card State.initial sampleItem sampleEn (sampleItem, 1) (Or.inl (by decide))
        (by decide)))
    rfl

/-! ## What the open lightbox shows -/

/-- C8: for an open lightbox whose index is a position of its item's media,
the lightbox resolves `m = item.media[index]` and shows one body: for a video
entry with identifier `y` the embedded player at
"https://www.youtube.com/embed/" ++ y, and for any other entry the image with
source `m.src`. -/
theorem lightbox_body (lb : Lightbox) (item : Item) (hopen : lb.isOpen = true)
    (hitem : lb.item = some item) (h0 : 0 ≤ lb.index) (h1 : lb.index < item.media.length) :
    ∃ (m : MediaEntry) (view : LightboxView),
      jsIndex item.media lb.index = some m ∧
      MediaLightbox lb.isOpen (lightboxMedia lb) (lightboxTitle lb) lb.index = some view ∧
      (∀ y : String, m.type = some "youtube" → m.youtubeId = some y →
        ∃ ttl : String,
          view.body = LightboxBody.iframe ("https://www.youtube.com/embed/" ++ y) ttl) ∧
      (m.type ≠ some "youtube" → view.body = LightboxBody.img m.src m.alt) := by
  obtain ⟨n, hn⟩ := Int.eq_ofNat_of_zero_le h0
  have hlt : n < item.media.length := by
    rw [hn] at h1
    exact Int.ofNat_lt.mp h1
  have hidx : jsIndex item.media lb.index = some (item.media[n]) := by
    rw [hn]
    show item.media[n]? = _
    exact List.getElem?_eq_getElem hlt
  cases hview : MediaLightbox lb.isOpen (lightboxMedia lb) (lightboxTitle lb) lb.index with
  | none => simp [MediaLightbox, hopen] at hview
  | some view =>
    refine ⟨item.media[n], view, hidx, rfl, ?_, ?_⟩
    · intro y hv hy
      simp [MediaLightbox, hopen, lightboxMedia, hitem, hidx, hv, hy, tpl] at hview
      exact ⟨_, by rw [← hview]⟩
    · intro hv
      simp [MediaLightbox, hopen, lightboxMedia, hitem, hidx, hv] at hview
      rw [← hview]

/-- Witness of C8: the sample item opened on its second entry, an image. -/
theorem lightbox_body_witness :
    ∃ (m : MediaEntry) (view : LightboxView),
      jsIndex sampleItem.media 1 = some m ∧
      MediaLightbox true sampleItem.media (orStr (some sampleItem.title) "") 1 = some view ∧
      (∀ y : String, m.type = some "youtube" → m.youtubeId = some y →
        ∃ ttl : String,
          view.body = LightboxBody.iframe ("https://www.youtube.com/embed/" ++ y) ttl) ∧
      (m.type ≠ some "youtube" → view.body = LightboxBody.img m.src m.alt) :=
  lightbox_body { isOpen := true, item := some sampleItem, index := 1 } sampleItem rfl rfl
    (by decide) (by decide)

/-- C9: for the entry `m` the open lightbox shows, the caption below the
media is `m.caption` when that is a non-empty string, otherwise `m.alt` when
that is a non-empty string, and there is no caption element when `m` has
neither. -/
theorem lightbox_caption (media : List MediaEntry) (title : String) (index : Int)
    (m : MediaEntry) (hm : jsIndex media index = some m) :
    ∃ view : LightboxView, MediaLightbox true media title index = some view ∧
      (∀ c : String, m.caption = some c → c ≠ "" → view.caption = some c) ∧
      (∀ a : String, (m.caption = none ∨ m.caption = some "") → m.alt = some a → a ≠ "" →
        view.caption = some a) ∧
      ((m.caption = none ∨ m.caption = some "") → (m.alt = none ∨ m.alt = some "") →
        view.caption = none) := by
  refine ⟨_, by simp only [MediaLightbox, hm]; rfl, ?_, ?_, ?_⟩
  · intro c hc hne
    simp [hc, hne, orElse, truthy]
  · intro a hc ha hne
    rcases hc with hc | hc <;> simp [hc, ha, hne, orElse, truthy]
  · intro hc ha
    rcases hc with hc | hc <;> rcases ha with ha | ha <;> simp [hc, ha, orElse, truthy]

/-- Witness of C9: the sample video has a caption and no alt text. -/
theorem lightbox_caption_witness :
    ∃ view : LightboxView, MediaLightbox true sampleItem.media "Viewer" 0 = some view ∧
      (∀ c : String, sampleVideo.caption = some c → c ≠ "" → view.caption = some c) ∧
      (∀ a : String, (sampleVideo.caption = none ∨ sampleVideo.caption = some "") →
        sampleVideo.alt = some a → a ≠ "" → view.caption = some a) ∧
      ((sampleVideo.caption = none ∨ sampleVideo.caption = some "") →
        (sampleVideo.alt = none ∨ sampleVideo.alt = some "") → view.caption = none) :=
  lightbox_caption sampleItem.media "Viewer" 0 sampleVideo rfl

/-! ## The thumbnail strip -/

/-- C10, as stated, fails: the sample item has a video hero followed by one
image, and its strip is not the single thumbnail of the image. It has two
buttons, the first one shows the hero and calls `onOpenMedia(item, 0)`. -/
theorem strip_not_only_after_hero :
    (ProjectCard sampleItem sampleEn).thumbs ≠ [thumbView sampleItem 1 sampleImage] ∧
    (ProjectCard sampleItem sampleEn).thumbs.length = 2 ∧
    (ProjectCard sampleItem sampleEn).thumbs.head? = some (thumbView sampleItem 0 sampleVideo) ∧
    (thumbView sampleItem 0 sampleVideo).onClick = (sampleItem, 0) := by
  decide

/-- C10, amended: the strip has one button for every entry of `item.media`,
the hero at position 0 included, in media order; the button at position `idx`
shows the thumbnail of the entry at `idx` (the video thumbnail address for a
video, `src` otherwise) and its click calls `onOpenMedia(item, idx)`. -/
theorem strip_all_media (item : Item) (t : Copy) :
    (ProjectCard item t).thumbs.length = item.media.length ∧
    ∀ (idx : Nat) (m : MediaEntry), item.media[idx]? = some m →
      ∃ th : ThumbView, (ProjectCard item t).thumbs[idx]? = some th ∧
        th.onClick = (item, idx) ∧
        th.src = (if m.type = some "youtube" then some (videoThumb m) else m.src) := by
  refine ⟨by simp [ProjectCard], ?_⟩
  intro idx m hm
  refine ⟨thumbView item idx m, by simp [ProjectCard, hm], rfl, ?_⟩
  by_cases hv : m.type = some "youtube" <;> simp [thumbView, isYoutube, hv]

/-- Witness of C10 as amended: position 0 of the sample item, its hero. -/
theorem strip_all_media_witness :
    ∃ th : ThumbView, (ProjectCard sampleItem sampleEn).thumbs[0]? = some th ∧
      th.onClick = (sampleItem, 0) ∧
      th.src = (if sampleVideo.type = some "youtube" then some (videoThumb sampleVideo)
        else sampleVideo.src) :=
  (strip_all_media sampleItem sampleEn).2 0 sampleVideo rfl

/-! ## Opening the lightbox on a target that is not a media position -/

/-- Indexing a list outside its positions gives `undefined`. -/
theorem jsIndex_outside {α : Type} (xs : List α) (i : Int)
    (h : i < 0 ∨ (xs.length : Int) ≤ i) : jsIndex xs i = none := by
  cases i with
  | ofNat n =>
    rcases h with h | h
    · exact absurd h (by simp)
    · show xs[n]? = none
      exact List.getElem?_eq_none (Int.ofNat_le.mp h)
  | negSucc n => rfl

/-- C11: `openMedia` neither rejects nor clamps. For no item, or for an item
and an index that is not a position of its media, `openMedia(item, index)`
stores an open lightbox with that item and that very index; the lightbox then
resolves the media entry to `undefined` (in the empty list when there is no
item) and renders, without failing, the image with no source and no alt text
and no caption element, and the page renders with that lightbox whenever its
language has a copy table. -/
theorem openMedia_outside_renders (st : State) (item : Option Item) (index : Int)
    (hout : ∀ it : Item, item = some it → index < 0 ∨ (it.media.length : Int) ≤ index) :
    (openMedia st item index).lightbox = { isOpen := true, item := item, index := index } ∧
    jsIndex (lightboxMedia (openMedia st item index).lightbox) index = none ∧
    (item = none → lightboxMedia (openMedia st item index).lightbox = []) ∧
    ∃ view : LightboxView,
      MediaLightbox (openMedia st item index).lightbox.isOpen
        (lightboxMedia (openMedia st item index).lightbox)
        (lightboxTitle (openMedia st item index).lightbox)
        (openMedia st item index).lightbox.index = some view ∧
      view.body = LightboxBody.img none none ∧
      view.caption = none ∧
      ∀ (copy : CopyTables) (projects lab : List Item) (year : Nat) (isMobile : Bool) (t : Copy),
        copy.lookup st.lang = some t →
        ∃ v : PageView,
          PortfolioDemo copy projects lab year isMobile (openMedia st item index) = some v ∧
          v.lightbox = some view := by
  have hidx : jsIndex (lightboxMedia (openMedia st item index).lightbox) index = none := by
    cases item with
    | none => exact jsIndex_outside [] index (by simpa using Int.lt_or_le index 0)
    | some it => exact jsIndex_outside it.media index (hout it rfl)
  refine ⟨rfl, hidx, ?_, ?_⟩
  · intro hnone
    subst hnone
    rfl
  · have hidx2 : jsIndex (lightboxMedia { isOpen := true, item := item, index := index })
        index = none := hidx
    have hview : ∃ view : LightboxView,
        MediaLightbox true (lightboxMedia { isOpen := true, item := item, index := index })
          (lightboxTitle { isOpen := true, item := item, index := index }) index = some view ∧
        view.body = LightboxBody.img none none ∧ view.caption = none := by
      simp only [MediaLightbox, hidx2]
      exact ⟨_, rfl, by simp, by simp [orElse, truthy]⟩
    obtain ⟨view, hv, hbody, hcap⟩ := hview
    refine ⟨view, hv, hbody, hcap, ?_⟩
    intro copy projects lab year isMobile t ht
    have ht2 : copy.lookup (openMedia st item index).lang = some t := ht
    refine ⟨_, by simp only [PortfolioDemo, ht2]; rfl, ?_⟩
    exact hv

/-- Witness of C11: the sample item, which has two media entries, opened at
index 5. -/
theorem openMedia_outside_renders_witness :
    (openMedia State.initial (some sampleItem) 5).lightbox =
      { isOpen := true, item := some sampleItem, index := 5 } ∧
    jsIndex (lightboxMedia (openMedia State.initial (some sampleItem) 5).lightbox) 5 = none ∧
    (some sampleItem = none →
      lightboxMedia (openMedia State.initial (some sampleItem) 5).lightbox = []) ∧
    ∃ view : LightboxView,
      MediaLightbox (openMedia State.initial (some sampleItem) 5).lightbox.isOpen
        (lightboxMedia (openMedia State.initial (some sampleItem) 5).lightbox)
        (lightboxTitle (openMedia State.initial (some sampleItem) 5).lightbox)
        (openMedia State.initial (some sampleItem) 5).lightbox.index = some view ∧
      view.body = LightboxBody.img none none ∧
      view.caption = none ∧
      ∀ (copy : CopyTables) (projects lab : List Item) (year : Nat) (isMobile : Bool) (t : Copy),
        copy.lookup State.initial.lang = some t →
        ∃ v : PageView,
          PortfolioDemo copy projects lab year isMobile
            (openMedia State.initial (some sampleItem) 5) = some v ∧
          v.lightbox = some view :=
  openMedia_outside_renders State.initial (some sampleItem) 5 (fun it h => by
    cases h
    exact Or.inr (by decide))

end Portfolio
